import Mathlib

/-!
Shallow embedding of src/python_bpspatcher/patcher.py.

Byte buffers are lists of natural numbers (each byte < 256 in real use).
Python semantics are modelled explicitly: slices clamp and accept negative
(wrap-around) bounds, plain indexing wraps negative indices and raises
IndexError when out of range, bytearray slice assignment may resize the
buffer, and the None value returned by an exhausted varint read propagates
until it is used in arithmetic (TypeError).
-/

/-- Python slice bound resolution for a buffer of length n: a negative bound
counts from the end (clamped below at 0), a non-negative bound is clamped
above at n. -/
def pyBound (n : Nat) (i : Int) : Nat :=
  if i < 0 then (i + n).toNat else min i.toNat n

/-- Python slice b[i:j] (step 1) with full clamping semantics. -/
def pySlice (l : List Nat) (i j : Int) : List Nat :=
  (l.take (pyBound l.length j)).drop (pyBound l.length i)

/-- Python bytearray slice assignment b[i:j] = data for non-negative bounds
with i ≤ j: the (clamped) range is replaced by data, resizing the buffer
when data has a different length. -/
def pySliceAssign (l : List Nat) (i j : Nat) (data : List Nat) : List Nat :=
  l.take i ++ data ++ l.drop j

/-- Python indexing b[i]: a negative index counts from the end; out-of-range
access yields none (IndexError). -/
def pyIndex (l : List Nat) (i : Int) : Option Nat :=
  let j : Int := if i < 0 then i + l.length else i
  if j < 0 then none else l[j.toNat]?

/-- Python bytearray element write b[i] = v at a non-negative index:
out-of-range yields none (IndexError). -/
def pySetIndex (l : List Nat) (i : Nat) (v : Nat) : Option (List Nat) :=
  if i < l.length then some (l.set i v) else none

/-- int.from_bytes(b, "little"): little-endian unsigned integer of a byte
string (convert_uint in the source). -/
def convert_uint (b : List Nat) : Nat :=
  b.foldr (fun x acc => x + 256 * acc) 0

/-- One bit iteration of the standard CRC-32 (poly 0xEDB88320, reflected). -/
def crc32_bit (crc : Nat) : Nat :=
  if crc &&& 1 = 1 then (crc >>> 1) ^^^ 0xEDB88320 else crc >>> 1

/-- Iterate crc32_bit k times. -/
def crc32_bits (crc : Nat) : Nat → Nat
  | 0 => crc
  | k + 1 => crc32_bits (crc32_bit crc) k

/-- Fold the CRC-32 state over a byte string. -/
def crc32_acc (crc : Nat) : List Nat → Nat
  | [] => crc
  | b :: rest => crc32_acc (crc32_bits (crc ^^^ b) 8) rest

/-- binascii.crc32: standard CRC-32 with initial and final value
0xFFFFFFFF complement. -/
def crc32 (data : List Nat) : Nat :=
  crc32_acc 0xFFFFFFFF data ^^^ 0xFFFFFFFF

/-- Loop body of read_number_io: data accumulates 7 low bits of each byte
scaled by shift; a byte with the high bit set terminates; otherwise shift
grows by a factor 128 and data is additionally increased by the new shift.
Exhausting the stream (even mid-varint) yields none, mirroring the None
returned by the source when b.read(1) is empty. -/
def read_number_loop : List Nat → Nat → Nat → Option Nat × List Nat
  | [], _, _ => (none, [])
  | x :: rest, data, shift =>
    let data2 := data + (x &&& 0x7f) * shift
    if x &&& 0x80 ≠ 0 then (some data2, rest)
    else read_number_loop rest (data2 + (shift <<< 7)) (shift <<< 7)

/-- read_number_io / read_number of the source: decode one varint from the
front of a byte stream, returning the value (none when exhausted) and the
remaining bytes (empty when exhaustion occurred, since the BytesIO cursor
then sits at the end). -/
def read_number (b : List Nat) : Option Nat × List Nat :=
  read_number_loop b 0 1

/-- Modelled from the spec: the canonical encoder inverse to the varint
decoder (section 4.1); the source is decode-only and has no encoder. Emit
7 low bits per byte, least significant group first, subtracting one from
the remaining value after each non-terminal byte; the final byte carries
the high bit. -/
def write_number (n : Nat) : List Nat :=
  if h : n < 0x80 then [n ||| 0x80]
  else (n &&& 0x7f) :: write_number ((n >>> 7) - 1)
termination_by n
decreasing_by
  simp only [Nat.shiftRight_eq_div_pow]
  omega

/-- Check a byte against an inclusive range (helper for UTF-8 validation). -/
def inRange (lo hi b : Nat) : Bool :=
  decide (lo ≤ b ∧ b ≤ hi)

/-- Validity of a byte string as strict UTF-8, as enforced by Python
bytes.decode with the UTF-8 codec: RFC 3629 sequences only (no overlongs,
no surrogates, at most U+10FFFF). -/
def isValidUtf8 : List Nat → Bool
  | [] => true
  | c0 :: rest =>
    if c0 < 0x80 then isValidUtf8 rest
    else if c0 < 0xC2 then false
    else if c0 < 0xE0 then
      match rest with
      | c1 :: r => inRange 0x80 0xBF c1 && isValidUtf8 r
      | _ => false
    else if c0 < 0xF0 then
      match rest with
      | c1 :: c2 :: r =>
        (if c0 = 0xE0 then inRange 0xA0 0xBF c1
         else if c0 = 0xED then inRange 0x80 0x9F c1
         else inRange 0x80 0xBF c1) &&
        inRange 0x80 0xBF c2 && isValidUtf8 r
      | _ => false
    else if c0 < 0xF5 then
      match rest with
      | c1 :: c2 :: c3 :: r =>
        (if c0 = 0xF0 then inRange 0x90 0xBF c1
         else if c0 = 0xF4 then inRange 0x80 0x8F c1
         else inRange 0x80 0xBF c1) &&
        inRange 0x80 0xBF c2 && inRange 0x80 0xBF c3 && isValidUtf8 r
      | _ => false
    else false

/-- Reasons carried by the InvalidPatch exception of the source. -/
inductive PatchFailure where
  | badMagic
  | badPatchChecksum
  | badSourceSize
  | badSourceChecksum
  | badTargetChecksum
deriving DecidableEq, Repr

/-- Every way a parse or apply run can abort: the typed InvalidPatch
exception of the engine, or an untyped Python exception escaping from the
code (UnicodeDecodeError, TypeError on None arithmetic, IndexError). -/
inductive PyError where
  | invalidPatch (r : PatchFailure)
  | unicodeDecodeError
  | typeError
  | indexError
deriving DecidableEq, Repr

/-- Whether an error is the typed InvalidPatch exception of the engine. -/
def PyError.isInvalidPatch : PyError → Bool
  | .invalidPatch _ => true
  | _ => false

/-- MAGIC_HEADER: the ASCII bytes of BPS1. -/
def MAGIC_HEADER : List Nat := [0x42, 0x50, 0x53, 0x31]

/-- Parsed patch container: the fields set by BPSPatch.__init__. The three
sizes are Option Nat because read_number returns None when the stream is
exhausted and __init__ stores that value without checking it. -/
structure BPSPatch where
  source_size : Option Nat
  target_size : Option Nat
  metadata_size : Option Nat
  metadata : List Nat
  actions : List Nat
  source_checksum : Nat
  target_checksum : Nat
  patch_checksum : Nat
deriving DecidableEq, Repr

/-- BPSPatch.__init__: validate the magic, read the three trailing
checksums, verify the whole-file CRC over everything but the last 4 bytes,
then decode the three header varints, slice out metadata (decoded as
UTF-8) and the action stream. A None metadata_size flows into the slices
as a missing bound, which Python treats as the default. -/
def BPSPatch.parse (patch : List Nat) : Except PyError BPSPatch :=
  if patch.take 4 ≠ MAGIC_HEADER then .error (.invalidPatch .badMagic)
  else
    let n : Int := patch.length
    let source_checksum := convert_uint (pySlice patch (-12) (-8))
    let target_checksum := convert_uint (pySlice patch (-8) (-4))
    let patch_checksum := convert_uint (pySlice patch (-4) n)
    let calculated_checksum := crc32 (pySlice patch 0 (n - 4))
    if patch_checksum ≠ calculated_checksum then
      .error (.invalidPatch .badPatchChecksum)
    else
      match read_number (patch.drop 4) with
      | (source_size, r1) =>
        match read_number r1 with
        | (target_size, r2) =>
          match read_number r2 with
          | (metadata_size, remainder) =>
            let metadata := match metadata_size with
              | none => remainder
              | some m => remainder.take m
            if ¬ isValidUtf8 metadata then .error .unicodeDecodeError
            else
              let mstart : Int := match metadata_size with
                | none => 0
                | some m => (m : Int)
              let actions := pySlice remainder mstart (-12)
              .ok ⟨source_size, target_size, metadata_size, metadata,
                   actions, source_checksum, target_checksum, patch_checksum⟩

/-- Mutable state of one patch_rom run: the remaining action stream (the
BytesIO cursor), the target bytearray and the three offsets. -/
structure RunState where
  actions : List Nat
  target : List Nat
  output_offset : Nat
  source_relative_offset : Int
  target_relative_offset : Int
deriving DecidableEq, Repr

/-- Result of executing one iteration of the interpreter loop. -/
inductive StepResult where
  | next (s : RunState)
  | done (target : List Nat)
  | fault (e : PyError)
deriving DecidableEq, Repr

/-- Signed delta of a copy instruction: low bit is the sign (1 means
negative), the remaining bits are the magnitude. -/
def signedDelta (d : Nat) : Int :=
  (if d &&& 1 = 1 then -1 else 1) * (d >>> 1)

/-- Inner loop of TargetCopy: copy cnt bytes one at a time, reading
target[target_relative_offset] and writing target[output_offset], then
advancing both; none signals an IndexError. -/
def targetCopyStep : Nat → List Nat → Nat → Int → Option (List Nat × Nat × Int)
  | 0, t, oo, tr => some (t, oo, tr)
  | k + 1, t, oo, tr =>
    match pyIndex t tr with
    | none => none
    | some v =>
      match pySetIndex t oo v with
      | none => none
      | some t2 => targetCopyStep k t2 (oo + 1) (tr + 1)

/-- One iteration of the patch_rom interpreter loop: decode the action
varint (exhaustion terminates the loop), split it into a 2-bit command and
a length, and execute the command against the run state with Python byte
semantics. -/
def patchStep (source : List Nat) (s : RunState) : StepResult :=
  match read_number s.actions with
  | (none, _) => .done s.target
  | (some action, rest) =>
    let command := action &&& 3
    let length := (action >>> 2) + 1
    if command = 0 then
      .next ⟨rest,
        pySliceAssign s.target s.output_offset (s.output_offset + length)
          (pySlice source s.output_offset (s.output_offset + length)),
        s.output_offset + length,
        s.source_relative_offset, s.target_relative_offset⟩
    else if command = 1 then
      .next ⟨rest.drop length,
        pySliceAssign s.target s.output_offset (s.output_offset + length)
          (rest.take length),
        s.output_offset + length,
        s.source_relative_offset, s.target_relative_offset⟩
    else if command = 2 then
      match read_number rest with
      | (none, _) => .fault .typeError
      | (some d, rest2) =>
        let so := s.source_relative_offset + signedDelta d
        .next ⟨rest2,
          pySliceAssign s.target s.output_offset (s.output_offset + length)
            (pySlice source so (so + length)),
          s.output_offset + length,
          so + length, s.target_relative_offset⟩
    else
      match read_number rest with
      | (none, _) => .fault .typeError
      | (some d, rest2) =>
        let tro := s.target_relative_offset + signedDelta d
        match targetCopyStep length s.target s.output_offset tro with
        | none => .fault .indexError
        | some (t2, oo2, tro2) =>
          .next ⟨rest2, t2, oo2, s.source_relative_offset, tro2⟩

/-- Decoding one varint successfully always consumes at least one byte. -/
def read_number_loop_shrink :
    ∀ (b : List Nat) (data shift v : Nat) (r : List Nat),
      read_number_loop b data shift = (some v, r) → r.length < b.length := by
  intro b
  induction b with
  | nil => intro data shift v r h; simp [read_number_loop] at h
  | cons x rest ih =>
    intro data shift v r h
    simp only [read_number_loop] at h
    split at h
    · cases h
      simp
    · have := ih _ _ v r h
      simp only [List.length_cons]
      omega

/-- An interpreter iteration that continues strictly shrinks the remaining
action stream (each iteration consumes at least the action varint). -/
def patchStep_next_shrink :
    ∀ (source : List Nat) (s s2 : RunState),
      patchStep source s = .next s2 → s2.actions.length < s.actions.length := by
  intro source s s2 h
  simp only [patchStep] at h
  rcases h1 : read_number s.actions with ⟨o, rest⟩
  rw [h1] at h
  cases o with
  | none => simp at h
  | some action =>
    have hrest : rest.length < s.actions.length :=
      read_number_loop_shrink _ _ _ _ _ h1
    simp only at h
    split_ifs at h with hc0 hc1 hc2
    · cases h; exact hrest
    · cases h
      simp only [List.length_drop]
      omega
    · rcases h2 : read_number rest with ⟨o2, rest2⟩
      rw [h2] at h
      cases o2 with
      | none => simp at h
      | some d =>
        simp only at h
        cases h
        have := read_number_loop_shrink _ _ _ _ _ h2
        show rest2.length < s.actions.length
        omega
    · rcases h2 : read_number rest with ⟨o2, rest2⟩
      rw [h2] at h
      cases o2 with
      | none => simp at h
      | some d =>
        simp only at h
        rcases h3 : targetCopyStep ((action >>> 2) + 1) s.target
            s.output_offset (s.target_relative_offset + signedDelta d) with _ | ⟨t2, oo2, tro2⟩
        · rw [h3] at h; simp at h
        · rw [h3] at h
          simp only at h
          cases h
          have := read_number_loop_shrink _ _ _ _ _ h2
          show rest2.length < s.actions.length
          omega

/-- The interpreter loop: run patchStep until the action stream is
exhausted (done) or a Python exception escapes (fault). -/
def patchLoop (source : List Nat) (s : RunState) : Except PyError (List Nat) :=
  match h : patchStep source s with
  | .next s2 => patchLoop source s2
  | .done t => .ok t
  | .fault e => .error e
termination_by s.actions.length
decreasing_by exact patchStep_next_shrink source s s2 h

/-- Initial run state of patch_rom: full action stream, zero-filled target
of the declared size, all offsets zero. -/
def initState (target_size : Nat) (actions : List Nat) : RunState :=
  ⟨actions, List.replicate target_size 0, 0, 0, 0⟩

/-- BPSPatch.patch_rom: check the source size and source checksum, run the
interpreter over a zero-filled target buffer, then check the target
checksum and return the buffer. A None target_size reaches bytearray()
and raises TypeError. -/
def BPSPatch.patch_rom (p : BPSPatch) (source : List Nat) :
    Except PyError (List Nat) :=
  if some source.length ≠ p.source_size then
    .error (.invalidPatch .badSourceSize)
  else if crc32 source ≠ p.source_checksum then
    .error (.invalidPatch .badSourceChecksum)
  else
    match p.target_size with
    | none => .error .typeError
    | some ts =>
      match patchLoop source (initState ts p.actions) with
      | .error e => .error e
      | .ok t =>
        if crc32 t ≠ p.target_checksum then
          .error (.invalidPatch .badTargetChecksum)
        else .ok t

/-! Helper lemmas. -/

theorem and127_eq_mod (n : Nat) : n &&& 127 = n % 128 := by
  have h7 : (127 : Nat) = 2 ^ 7 - 1 := by norm_num
  have h8 : (128 : Nat) = 2 ^ 7 := by norm_num
  rw [h7, h8, Nat.and_pow_two_sub_one_eq_mod]

theorem and128_of_lt {n : Nat} (h : n < 128) : n &&& 128 = 0 := by
  have h8 : (128 : Nat) = 2 ^ 7 := by norm_num
  rw [h8, Nat.and_two_pow]
  have : n.testBit 7 = false := Nat.testBit_lt_two_pow (by omega)
  simp [this]

theorem or128_and127 {n : Nat} (h : n < 128) : (n ||| 128) &&& 127 = n := by
  rw [Nat.and_distrib_right, and127_eq_mod, Nat.mod_eq_of_lt h]
  have h0 : (128 : Nat) &&& 127 = 0 := by decide
  rw [h0, Nat.or_zero]

theorem or128_and128 (n : Nat) : (n ||| 128) &&& 128 ≠ 0 := by
  intro hz
  have := congrArg (fun x => Nat.testBit x 7) hz
  simp only [Nat.testBit_and, Nat.testBit_or] at this
  have h128 : Nat.testBit 128 7 = true := by decide
  simp [h128] at this

theorem write_number_of_lt {n : Nat} (h : n < 128) :
    write_number n = [n ||| 128] := by
  rw [write_number]
  simp [h]

theorem write_number_of_ge {n : Nat} (h : ¬ n < 128) :
    write_number n = (n &&& 127) :: write_number ((n >>> 7) - 1) := by
  rw [write_number]
  simp [h]

theorem shiftRight7_sub_one_lt {n : Nat} (h : ¬ n < 128) :
    (n >>> 7) - 1 < n := by
  rw [Nat.shiftRight_eq_div_pow]
  have h2 : (2 : Nat) ^ 7 = 128 := by norm_num
  rw [h2]
  omega

theorem read_number_loop_write (n : Nat) :
    ∀ (rest : List Nat) (data shift : Nat),
      read_number_loop (write_number n ++ rest) data shift =
        (some (data + n * shift), rest) := by
  induction n using Nat.strong_induction_on with
  | _ n ih =>
    intro rest data shift
    by_cases h : n < 128
    · rw [write_number_of_lt h]
      simp only [List.cons_append, List.nil_append, read_number_loop]
      rw [if_pos (or128_and128 n), or128_and127 h]
      rfl
    · rw [write_number_of_ge h]
      simp only [List.cons_append, read_number_loop]
      have hclear : (n &&& 127) &&& 128 = 0 := by
        rw [and127_eq_mod]
        exact and128_of_lt (Nat.mod_lt n (by norm_num))
      rw [if_neg (by simp [hclear])]
      simp only [List.append_eq]
      have ha : n &&& 127 &&& 127 = n &&& 127 := by
        have h127 : (127 : Nat) &&& 127 = 127 := by decide
        rw [Nat.and_assoc, h127]
      rw [ha, ih _ (shiftRight7_sub_one_lt h)]
      have hq1 : 1 ≤ n / 128 := by omega
      have key : data + (n &&& 127) * shift + shift <<< 7 +
          ((n >>> 7) - 1) * (shift <<< 7) = data + n * shift := by
        rw [and127_eq_mod, Nat.shiftRight_eq_div_pow, Nat.shiftLeft_eq]
        have h2 : (2 : Nat) ^ 7 = 128 := by norm_num
        rw [h2]
        zify [hq1]
        have hdm : (128 : ℤ) * ((n : ℤ) / 128) + (n : ℤ) % 128 = n := by
          exact_mod_cast Nat.div_add_mod n 128
        linear_combination (shift : ℤ) * hdm
      rw [key]

theorem read_number_write (n : Nat) (rest : List Nat) :
    read_number (write_number n ++ rest) = (some n, rest) := by
  unfold read_number
  rw [read_number_loop_write]
  simp

theorem read_number_loop_clear :
    ∀ (l : List Nat), (∀ x ∈ l, x &&& 128 = 0) →
      ∀ data shift, read_number_loop l data shift = (none, []) := by
  intro l
  induction l with
  | nil => intro _ data shift; simp [read_number_loop]
  | cons x rest ih =>
    intro hall data shift
    simp only [read_number_loop]
    rw [if_neg (by simp [hall x (by simp)])]
    exact ih (fun y hy => hall y (by simp [hy])) _ _

theorem write_number_take_clear :
    ∀ (n k : Nat), k < (write_number n).length →
      ∀ x ∈ (write_number n).take k, x &&& 128 = 0 := by
  intro n
  induction n using Nat.strong_induction_on with
  | _ n ih =>
    intro k hk x hx
    by_cases h : n < 128
    · rw [write_number_of_lt h] at hk hx
      simp only [List.length_cons, List.length_nil] at hk
      have hk0 : k = 0 := by omega
      subst hk0
      simp at hx
    · rw [write_number_of_ge h] at hk hx
      cases k with
      | zero => simp at hx
      | succ j =>
        simp only [List.take_succ_cons] at hx
        rcases List.mem_cons.mp hx with heq | hmem
        · subst heq
          rw [and127_eq_mod]
          exact and128_of_lt (Nat.mod_lt n (by norm_num))
        · simp only [List.length_cons] at hk
          exact ih _ (shiftRight7_sub_one_lt h) j (by omega) x hmem

theorem read_number_take_write (n k : Nat) (h : k < (write_number n).length) :
    read_number ((write_number n).take k) = (none, []) :=
  read_number_loop_clear _ (write_number_take_clear n k h) 0 1

theorem patchLoop_next {source : List Nat} {s s2 : RunState}
    (h : patchStep source s = .next s2) :
    patchLoop source s = patchLoop source s2 := by
  rw [patchLoop.eq_def]
  split
  all_goals rename_i heq
  · rw [h] at heq
    injection heq with h2
    rw [h2]
  · rw [h] at heq; cases heq
  · rw [h] at heq; cases heq

theorem patchLoop_done {source : List Nat} {s : RunState} {t : List Nat}
    (h : patchStep source s = .done t) :
    patchLoop source s = .ok t := by
  rw [patchLoop.eq_def]
  split
  all_goals rename_i heq
  · rw [h] at heq; cases heq
  · rw [h] at heq
    injection heq with h2
    rw [h2]
  · rw [h] at heq; cases heq

theorem patchLoop_fault {source : List Nat} {s : RunState} {e : PyError}
    (h : patchStep source s = .fault e) :
    patchLoop source s = .error e := by
  rw [patchLoop.eq_def]
  split
  all_goals rename_i heq
  · rw [h] at heq; cases heq
  · rw [h] at heq; cases heq
  · rw [h] at heq
    injection heq with h2
    rw [h2]

theorem pyIndex_of_nonneg_lt {t : List Nat} {tr : Int}
    (h0 : 0 ≤ tr) (h1 : tr < t.length) :
    pyIndex t tr = some (t.get ⟨tr.toNat, by omega⟩) := by
  unfold pyIndex
  simp only [if_neg (not_lt.mpr h0)]
  rw [List.getElem?_eq_getElem (by omega : tr.toNat < t.length)]
  simp [List.get_eq_getElem]

theorem targetCopyStep_total :
    ∀ (cnt : Nat) (t : List Nat) (oo : Nat) (tr : Int),
      0 ≤ tr → tr + cnt ≤ t.length → oo + cnt ≤ t.length →
      ∃ t2, targetCopyStep cnt t oo tr = some (t2, oo + cnt, tr + cnt) ∧
        t2.length = t.length := by
  intro cnt
  induction cnt with
  | zero =>
    intro t oo tr h0 h1 h2
    exact ⟨t, by simp [targetCopyStep], rfl⟩
  | succ k ih =>
    intro t oo tr h0 h1 h2
    have htr : tr < t.length := by
      push_cast at h1
      omega
    have hoo : oo < t.length := by omega
    obtain ⟨t2, hstep, hlen⟩ := ih (t.set oo (t.get ⟨tr.toNat, by omega⟩))
        (oo + 1) (tr + 1) (by omega)
        (by simp only [List.length_set]; push_cast at h1 ⊢; omega)
        (by simp only [List.length_set]; omega)
    refine ⟨t2, ?_, by simp_all [List.length_set]⟩
    simp only [targetCopyStep, pyIndex_of_nonneg_lt h0 htr]
    unfold pySetIndex
    rw [if_pos hoo]
    simp only
    rw [hstep]
    have ho : oo + 1 + k = oo + (k + 1) := by omega
    rw [ho]
    congr 2
    push_cast
    ring

theorem targetCopyStep_oo_mono :
    ∀ (cnt : Nat) (t : List Nat) (oo : Nat) (tr : Int)
      (t2 : List Nat) (oo2 : Nat) (tr2 : Int),
      targetCopyStep cnt t oo tr = some (t2, oo2, tr2) → oo ≤ oo2 := by
  intro cnt
  induction cnt with
  | zero =>
    intro t oo tr t2 oo2 tr2 h
    simp only [targetCopyStep, Option.some.injEq] at h
    cases h
    omega
  | succ k ih =>
    intro t oo tr t2 oo2 tr2 h
    simp only [targetCopyStep] at h
    rcases hpi : pyIndex t tr with _ | v
    · rw [hpi] at h; cases h
    · rw [hpi] at h
      simp only at h
      rcases hps : pySetIndex t oo v with _ | t3
      · rw [hps] at h; cases h
      · rw [hps] at h
        simp only at h
        have := ih _ _ _ _ _ _ h
        omega

theorem patchStep_oo_mono {source : List Nat} {s s2 : RunState}
    (h : patchStep source s = .next s2) :
    s.output_offset ≤ s2.output_offset := by
  simp only [patchStep] at h
  rcases h1 : read_number s.actions with ⟨o, rest⟩
  rw [h1] at h
  cases o with
  | none => simp at h
  | some action =>
    simp only at h
    split_ifs at h with hc0 hc1 hc2
    · cases h; show s.output_offset ≤ s.output_offset + _; omega
    · cases h; show s.output_offset ≤ s.output_offset + _; omega
    · rcases h2 : read_number rest with ⟨o2, rest2⟩
      rw [h2] at h
      cases o2 with
      | none => simp at h
      | some d =>
        simp only at h
        cases h
        show s.output_offset ≤ s.output_offset + _
        omega
    · rcases h2 : read_number rest with ⟨o2, rest2⟩
      rw [h2] at h
      cases o2 with
      | none => simp at h
      | some d =>
        simp only at h
        rcases h3 : targetCopyStep ((action >>> 2) + 1) s.target
            s.output_offset (s.target_relative_offset + signedDelta d)
            with _ | ⟨t2, oo2, tro2⟩
        · rw [h3] at h; cases h
        · rw [h3] at h
          simp only at h
          cases h
          exact targetCopyStep_oo_mono _ _ _ _ _ _ _ h3

theorem patchStep_sourceCopy {source : List Nat} {s : RunState}
    {a d : Nat} {rest : List Nat}
    (h2 : a &&& 3 = 2)
    (hact : s.actions = write_number a ++ (write_number d ++ rest)) :
    patchStep source s = .next
      ⟨rest,
       pySliceAssign s.target s.output_offset
         (s.output_offset + ((a >>> 2) + 1))
         (pySlice source (s.source_relative_offset + signedDelta d)
           (s.source_relative_offset + signedDelta d + ((a >>> 2) + 1))),
       s.output_offset + ((a >>> 2) + 1),
       s.source_relative_offset + signedDelta d + ((a >>> 2) + 1),
       s.target_relative_offset⟩ := by
  unfold patchStep
  rw [hact, read_number_write]
  simp only [h2, read_number_write]
  norm_num

theorem patchStep_targetCopy_cursor {source : List Nat} {s : RunState}
    {a d : Nat} {rest : List Nat}
    (h3 : a &&& 3 = 3)
    (hact : s.actions = write_number a ++ (write_number d ++ rest))
    (hb0 : 0 ≤ s.target_relative_offset + signedDelta d)
    (hb1 : s.target_relative_offset + signedDelta d + ((a >>> 2) + 1) ≤
      s.target.length)
    (hb2 : s.output_offset + ((a >>> 2) + 1) ≤ s.target.length) :
    ∃ t2, patchStep source s = .next
      ⟨rest, t2,
       s.output_offset + ((a >>> 2) + 1),
       s.source_relative_offset,
       s.target_relative_offset + signedDelta d + ((a >>> 2) + 1)⟩ := by
  obtain ⟨t2, hstep, _⟩ := targetCopyStep_total ((a >>> 2) + 1) s.target
    s.output_offset (s.target_relative_offset + signedDelta d) hb0
    (by push_cast at hb1 ⊢; omega) hb2
  refine ⟨t2, ?_⟩
  unfold patchStep
  rw [hact, read_number_write]
  simp only [h3, read_number_write]
  norm_num
  rw [hstep]
  simp only [StepResult.next.injEq, RunState.mk.injEq, true_and, and_true]
  push_cast
  ring

/-! Claim theorems. -/

/-- C8: the varint codec round-trips: decoding the canonical encoding of
any n (in particular any n below 2^32) yields exactly n and consumes
exactly the encoded bytes, and decoding any strict prefix of the encoding
(a truncated stream) yields no value, never a partial wrong number. -/
theorem C8_varint_roundtrip (n : Nat) (rest : List Nat) (_hn : n < 2 ^ 32) :
    read_number (write_number n ++ rest) = (some n, rest) ∧
    ∀ k, k < (write_number n).length →
      read_number ((write_number n).take k) = (none, []) :=
  ⟨read_number_write n rest, fun k hk => read_number_take_write n k hk⟩

theorem C8_varint_roundtrip_witness :
    read_number (write_number 300 ++ [7]) = (some 300, [7]) ∧
    read_number ((write_number 300).take 1) = (none, []) := by
  have h := C8_varint_roundtrip 300 [7] (by norm_num)
  refine ⟨h.1, h.2 1 ?_⟩
  rw [write_number_of_ge (by norm_num)]
  rw [(by decide : (300 : Nat) >>> 7 - 1 = 1)]
  rw [write_number_of_lt (by norm_num)]
  simp

/-- C10: when the action stream ends right after a SourceCopy or
TargetCopy opcode, the missing delta varint decodes to the none sentinel
which is then used in sign arithmetic: the run faults with an untyped
TypeError, which is not the typed InvalidPatch error, and the loop does
not terminate cleanly. -/
theorem C10_truncated_delta (source : List Nat) (s : RunState) (a : Nat)
    (hcmd : a &&& 3 = 2 ∨ a &&& 3 = 3) (hact : s.actions = write_number a) :
    patchStep source s = .fault .typeError ∧
    patchLoop source s = .error .typeError ∧
    PyError.isInvalidPatch .typeError = false := by
  have hstep : patchStep source s = .fault .typeError := by
    unfold patchStep
    have hact2 : s.actions = write_number a ++ [] := by simp [hact]
    rw [hact2, read_number_write]
    rcases hcmd with h2 | h3
    · simp only [h2]
      norm_num [read_number, read_number_loop]
    · simp only [h3]
      norm_num [read_number, read_number_loop]
  exact ⟨hstep, patchLoop_fault hstep, rfl⟩

theorem C10_truncated_delta_witness :
    patchStep [] ⟨[130], [], 0, 0, 0⟩ = .fault .typeError :=
  (C10_truncated_delta [] ⟨[130], [], 0, 0, 0⟩ 2 (Or.inl (by decide))
    (by rw [write_number_of_lt (by norm_num)]; decide)).1

/-- C5: patch_rom checks the source size and then the source checksum
before anything else: on a size mismatch it fails with the size error and
on a checksum mismatch with the checksum error, in both cases regardless
of the action stream and before any instruction executes, so no partial
target is ever observable. -/
theorem C5_source_preconditions (p : BPSPatch) (source : List Nat) :
    (p.source_size ≠ some source.length →
      p.patch_rom source = .error (.invalidPatch .badSourceSize)) ∧
    (p.source_size = some source.length →
      crc32 source ≠ p.source_checksum →
      p.patch_rom source = .error (.invalidPatch .badSourceChecksum)) := by
  constructor
  · intro h
    unfold BPSPatch.patch_rom
    rw [if_pos (fun he => h he.symm)]
  · intro h1 h2
    unfold BPSPatch.patch_rom
    rw [if_neg (by simp [h1]), if_pos h2]

theorem C5_source_preconditions_witness :
    BPSPatch.patch_rom ⟨some 1, none, none, [], [], 0, 0, 0⟩ [] =
      .error (.invalidPatch .badSourceSize) ∧
    BPSPatch.patch_rom ⟨some 0, none, none, [], [], 1, 0, 0⟩ [] =
      .error (.invalidPatch .badSourceChecksum) :=
  ⟨(C5_source_preconditions ⟨some 1, none, none, [], [], 0, 0, 0⟩ []).1
      (by decide),
   (C5_source_preconditions ⟨some 0, none, none, [], [], 1, 0, 0⟩ []).2
      (by decide) (by decide)⟩

/-- C6: parse validates the container before trusting anything else: a
patch whose first 4 bytes differ from the BPS1 magic fails with the magic
error, and a patch with good magic whose CRC32 over all but the last 4
bytes differs from the trailing little-endian 32-bit field fails with the
patch checksum error, both regardless of the rest of the body. -/
theorem C6_parse_validates (patch : List Nat) :
    (patch.take 4 ≠ MAGIC_HEADER →
      BPSPatch.parse patch = .error (.invalidPatch .badMagic)) ∧
    (patch.take 4 = MAGIC_HEADER →
      convert_uint (pySlice patch (-4) patch.length) ≠
        crc32 (pySlice patch 0 ((patch.length : Int) - 4)) →
      BPSPatch.parse patch = .error (.invalidPatch .badPatchChecksum)) := by
  constructor
  · intro h
    unfold BPSPatch.parse
    rw [if_pos h]
  · intro h1 h2
    unfold BPSPatch.parse
    rw [if_neg (by simp [h1])]
    dsimp only
    rw [if_pos h2]

theorem C6_parse_validates_witness :
    BPSPatch.parse [0, 0, 0, 0] = .error (.invalidPatch .badMagic) ∧
    BPSPatch.parse [66, 80, 83, 49] = .error (.invalidPatch .badPatchChecksum) :=
  ⟨(C6_parse_validates [0, 0, 0, 0]).1 (by decide),
   (C6_parse_validates [66, 80, 83, 49]).2 (by decide) (by decide)⟩

/-- C1: for a SourceCopy instruction the interpreter decodes one delta
varint, interprets its low bit as sign and the remaining bits as
magnitude, moves the source relative cursor by that amount before the
copy and advances it by the length after; symmetrically TargetCopy moves
and advances the target relative cursor; and the cursor persists across
instructions, so a second SourceCopy resumes from where the first left
the cursor rather than from output_offset. -/
theorem C1_relative_cursors :
    (∀ (source : List Nat) (s : RunState) (a d : Nat) (rest : List Nat),
      a &&& 3 = 2 →
      s.actions = write_number a ++ (write_number d ++ rest) →
      patchStep source s = .next
        ⟨rest,
         pySliceAssign s.target s.output_offset
           (s.output_offset + ((a >>> 2) + 1))
           (pySlice source (s.source_relative_offset + signedDelta d)
             (s.source_relative_offset + signedDelta d + ((a >>> 2) + 1))),
         s.output_offset + ((a >>> 2) + 1),
         s.source_relative_offset + signedDelta d + ((a >>> 2) + 1),
         s.target_relative_offset⟩) ∧
    (∀ (source : List Nat) (s : RunState) (a d : Nat) (rest : List Nat),
      a &&& 3 = 3 →
      s.actions = write_number a ++ (write_number d ++ rest) →
      0 ≤ s.target_relative_offset + signedDelta d →
      s.target_relative_offset + signedDelta d + ((a >>> 2) + 1) ≤
        s.target.length →
      s.output_offset + ((a >>> 2) + 1) ≤ s.target.length →
      ∃ t2, patchStep source s = .next
        ⟨rest, t2,
         s.output_offset + ((a >>> 2) + 1),
         s.source_relative_offset,
         s.target_relative_offset + signedDelta d + ((a >>> 2) + 1)⟩) ∧
    (∀ (source : List Nat) (s : RunState) (a1 d1 a2 d2 : Nat)
        (rest : List Nat),
      a1 &&& 3 = 2 → a2 &&& 3 = 2 →
      s.actions = write_number a1 ++ (write_number d1 ++
        (write_number a2 ++ (write_number d2 ++ rest))) →
      ∃ s1, patchStep source s = .next s1 ∧
        s1.source_relative_offset =
          s.source_relative_offset + signedDelta d1 + ((a1 >>> 2) + 1) ∧
        patchStep source s1 = .next
          ⟨rest,
           pySliceAssign s1.target s1.output_offset
             (s1.output_offset + ((a2 >>> 2) + 1))
             (pySlice source (s1.source_relative_offset + signedDelta d2)
               (s1.source_relative_offset + signedDelta d2 +
                 ((a2 >>> 2) + 1))),
           s1.output_offset + ((a2 >>> 2) + 1),
           s1.source_relative_offset + signedDelta d2 + ((a2 >>> 2) + 1),
           s1.target_relative_offset⟩) := by
  refine ⟨fun source s a d rest h2 hact => patchStep_sourceCopy h2 hact,
    fun source s a d rest h3 hact hb0 hb1 hb2 =>
      patchStep_targetCopy_cursor h3 hact hb0 hb1 hb2,
    ?_⟩
  intro source s a1 d1 a2 d2 rest h1 h2 hact
  exact ⟨_, patchStep_sourceCopy h1 hact, rfl, patchStep_sourceCopy h2 rfl⟩

theorem C1_relative_cursors_witness :
    patchStep [9, 8, 7, 6, 5, 4] ⟨[130, 131], [0], 0, 5, 0⟩ =
      .next ⟨[], [5], 1, 5, 0⟩ := by
  have h := C1_relative_cursors.1 [9, 8, 7, 6, 5, 4]
    ⟨[130, 131], [0], 0, 5, 0⟩ 2 3 [] (by decide)
    (by rw [write_number_of_lt (by norm_num), write_number_of_lt (by norm_num)]
        decide)
  rw [h]
  decide

/-- C4 (amended): output_offset never decreases across an interpreter
iteration; the bound by target_size claimed by the spec does not hold (see
the counterexample) because the code performs no TargetOverflow check. -/
theorem C4_output_offset_monotone (source : List Nat) (s s2 : RunState)
    (h : patchStep source s = .next s2) :
    s.output_offset ≤ s2.output_offset :=
  patchStep_oo_mono h

theorem C4_output_offset_monotone_witness :
    (initState 2 [129, 65]).output_offset ≤
      (⟨[], [65, 0], 1, 0, 0⟩ : RunState).output_offset :=
  C4_output_offset_monotone [] (initState 2 [129, 65])
    ⟨[], [65, 0], 1, 0, 0⟩ (by decide)

/-- C4 (counterexample): a SourceRead of length 2 in a run whose declared
target size is 1 grows the bytearray, leaves output_offset at 2 which
exceeds the target size, raises no TargetOverflow, and the run completes
normally. -/
theorem C4_overflow_unchecked :
    patchStep [3, 4] (initState 1 [132]) = .next ⟨[], [3, 4], 2, 0, 0⟩ ∧
    (initState 1 [132]).target.length = 1 ∧ 2 > 1 ∧
    patchLoop [3, 4] (initState 1 [132]) = .ok [3, 4] := by
  refine ⟨by decide, by decide, by norm_num, ?_⟩
  rw [patchLoop_next (by decide :
    patchStep [3, 4] (initState 1 [132]) = .next ⟨[], [3, 4], 2, 0, 0⟩)]
  exact patchLoop_done (by decide :
    patchStep [3, 4] (⟨[], [3, 4], 2, 0, 0⟩ : RunState) = .done [3, 4])

/-- C2 (counterexample): with target bytes so far 0x41 and output_offset
1, a TargetCopy of length 5 with delta -1 does not produce six 0x41
bytes: the delta moves the target relative cursor from 0 to -1, which
Python wraps to the last byte of the zero-filled buffer, so the run
yields 41 00 41 00 41 00. -/
theorem C2_delta_neg_one_wraps :
    patchLoop [] (initState 6 [129, 65, 147, 131]) =
      .ok [65, 0, 65, 0, 65, 0] ∧
    [65, 0, 65, 0, 65, 0] ≠ List.replicate 6 65 := by
  refine ⟨?_, by decide⟩
  rw [patchLoop_next (by decide : patchStep [] (initState 6 [129, 65, 147, 131]) =
    .next ⟨[147, 131], [65, 0, 0, 0, 0, 0], 1, 0, 0⟩)]
  rw [patchLoop_next (by decide :
    patchStep [] (⟨[147, 131], [65, 0, 0, 0, 0, 0], 1, 0, 0⟩ : RunState) =
    .next ⟨[], [65, 0, 65, 0, 65, 0], 6, 0, 4⟩)]
  exact patchLoop_done (by decide)

/-- C2 (amended): the same run-length duplication scenario with delta 0
(the target relative cursor still sits at 0, one before the current
output position) does produce six 0x41 bytes, byte by byte in increasing
offset order, each written byte immediately readable as the source of the
next. -/
theorem C2_delta_zero_duplicates :
    patchLoop [] (initState 6 [129, 65, 147, 128]) =
      .ok (List.replicate 6 65) := by
  rw [patchLoop_next (by decide : patchStep [] (initState 6 [129, 65, 147, 128]) =
    .next ⟨[147, 128], [65, 0, 0, 0, 0, 0], 1, 0, 0⟩)]
  rw [patchLoop_next (by decide :
    patchStep [] (⟨[147, 128], [65, 0, 0, 0, 0, 0], 1, 0, 0⟩ : RunState) =
    .next ⟨[], [65, 65, 65, 65, 65, 65], 6, 0, 5⟩)]
  rw [patchLoop_done (by decide :
    patchStep [] (⟨[], [65, 65, 65, 65, 65, 65], 6, 0, 5⟩ : RunState) =
    .done [65, 65, 65, 65, 65, 65])]
  rfl

/-- C3: the interpreter performs no bounds checks: a SourceRead whose
range extends past the end of the source silently copies the few bytes
Python slicing yields (shrinking the target bytearray) and continues
without any error, and a SourceCopy whose delta moves the cursor negative
reads from a wrapped-around position near the end of the source, again
continuing without any error. -/
theorem C3_reads_not_checked :
    patchStep [5] ⟨[136], [0, 0, 0], 0, 0, 0⟩ = .next ⟨[], [5], 3, 0, 0⟩ ∧
    patchStep [7, 9] ⟨[130, 133], [0], 0, 0, 0⟩ =
      .next ⟨[], [7], 1, -1, 0⟩ := by decide

set_option maxRecDepth 40000 in
/-- C7: a patch whose metadata_size varint exhausts the stream parses
successfully with metadata_size none instead of failing with a truncated
patch error: the patch below passes the magic and whole-file CRC checks,
its source_size and target_size varints decode to 0, and the remaining 12
bytes (the footer, all with clear high bits) exhaust the metadata_size
read. -/
theorem C7_truncated_varint_accepted :
    BPSPatch.parse
        [66, 80, 83, 49, 128, 128, 0, 0, 0, 0, 71, 0, 0, 0, 0, 8, 116, 92] =
      .ok ⟨some 0, some 0, none, [], [], 0, 71, 1551108096⟩ := rfl

/-- C9 (amended): whenever patch_rom returns a target buffer its CRC32
equals the declared target checksum (a mismatch is rejected instead of
returned); the length guarantee claimed by the spec does not hold, see
the counterexample. -/
theorem C9_success_implies_crc (p : BPSPatch) (source t : List Nat)
    (h : p.patch_rom source = .ok t) :
    crc32 t = p.target_checksum := by
  unfold BPSPatch.patch_rom at h
  split_ifs at h
  rcases hts : p.target_size with _ | ts
  · rw [hts] at h
    cases h
  · rw [hts] at h
    simp only at h
    rcases hl : patchLoop source (initState ts p.actions) with e | t2
    · rw [hl] at h
      cases h
    · rw [hl] at h
      simp only at h
      split_ifs at h with hc
      injection h with h2
      rw [← h2]
      exact not_not.mp hc

theorem C9_success_implies_crc_witness :
    BPSPatch.patch_rom ⟨some 0, some 0, some 0, [], [], 0, 0, 0⟩ [] =
      .ok [] ∧
    crc32 [] =
      (⟨some 0, some 0, some 0, [], [], 0, 0, 0⟩ : BPSPatch).target_checksum := by
  have hp : BPSPatch.patch_rom ⟨some 0, some 0, some 0, [], [], 0, 0, 0⟩ [] =
      .ok [] := by
    unfold BPSPatch.patch_rom
    rw [if_neg (by decide), if_neg (by decide)]
    simp only
    rw [patchLoop_done (by decide : patchStep [] (initState 0 []) = .done [])]
    dsimp only
    rw [if_neg (by decide : ¬ crc32 [] ≠ 0)]
  exact ⟨hp, C9_success_implies_crc _ _ _ hp⟩

/-- C9 (counterexample): a container declaring target_size 2 whose single
SourceRead instruction of length 2 reads a one-byte source shrinks the
bytearray to one byte, and patch_rom returns that one-byte buffer
successfully even though its length differs from target_size. -/
theorem C9_short_target_returned :
    BPSPatch.patch_rom
        ⟨some 1, some 2, some 0, [], [132], 3554254475, 3554254475, 0⟩
        [65] = .ok [65] ∧
    (⟨some 1, some 2, some 0, [], [132], 3554254475, 3554254475, 0⟩ :
      BPSPatch).target_size = some 2 ∧
    ([65] : List Nat).length ≠ 2 := by
  refine ⟨?_, rfl, by decide⟩
  unfold BPSPatch.patch_rom
  rw [if_neg (by decide), if_neg (by decide)]
  simp only
  rw [patchLoop_next (by decide :
    patchStep [65] (initState 2 [132]) = .next ⟨[], [65], 2, 0, 0⟩)]
  rw [patchLoop_done (by decide :
    patchStep [65] (⟨[], [65], 2, 0, 0⟩ : RunState) = .done [65])]
  dsimp only
  rw [if_neg (by decide : ¬ crc32 [65] ≠ 3554254475)]
